import Mathlib

/-!
Shallow embedding of the rapidmed-qa product Q&A engine
(`src/qa_engine.py`, class `ProductQASystem`) together with the
loader glue in `src/app.py`.  Python strings are `String`, pandas
NaN-able cells are `Option`, floats are `ℚ`, dicts are association
lists in their iteration order, and fallible code returns `Option`
or `Except`.  Each definition is annotated with the source line it
embeds.
-/

/- The Batteries rational-number operations are `@[irreducible]` only
to keep `simp` from unfolding them; the numeric claims below evaluate
them on concrete inputs, so restore their reducibility. -/
unseal Rat.mul Rat.inv Rat.add Rat.sub Rat.ofScientific

/-- Python slicing `s[:n]` on a string: the first `n` characters. -/
def strTake (s : String) (n : Nat) : String :=
  String.mk (s.data.take n)

/-- Boolean prefix test on character lists (exact, case sensitive). -/
def listIsPrefixOf : List Char → List Char → Bool
  | [], _ => true
  | _ :: _, [] => false
  | a :: as, b :: bs => a = b && listIsPrefixOf as bs

/-- Helper of `strContains`: does `needle` occur in the list? -/
def listContainsSub (needle : List Char) : List Char → Bool
  | [] => needle.isEmpty
  | c :: cs => listIsPrefixOf needle (c :: cs) || listContainsSub needle cs

/-- Python substring test `needle in hay`. -/
def strContains (hay needle : String) : Bool :=
  listContainsSub needle.data hay.data

/-- Helper of `dedupFirst`: drop the elements already seen. -/
def dedupSeen {α : Type} [DecidableEq α] (seen : List α) : List α → List α
  | [] => []
  | a :: as => if a ∈ seen then dedupSeen seen as else a :: dedupSeen (a :: seen) as

/-- Pandas `Series.unique`: deduplicate keeping the first occurrence. -/
def dedupFirst {α : Type} [DecidableEq α] (l : List α) : List α :=
  dedupSeen [] l

/-- Python `str.lower()` on the ASCII range. -/
def pyLower (s : String) : String :=
  String.mk (s.data.map Char.toLower)

/-- Python `str.upper()` on the ASCII range. -/
def pyUpper (s : String) : String :=
  String.mk (s.data.map Char.toUpper)

/-- Python `\s` and `str.strip()` whitespace, on the ASCII range. -/
def pyWhitespace (c : Char) : Bool :=
  c = ' ' ∨ c = '\t' ∨ c = '\n' ∨ c = '\r' ∨ c = '\x0b' ∨ c = '\x0c'

/-- Python `str.strip()`: whitespace removed from both ends. -/
def pyStrip (s : String) : String :=
  String.mk (((s.data.dropWhile pyWhitespace).reverse.dropWhile pyWhitespace).reverse)

/-- Python `" ".join(l)`. -/
def joinSp (l : List String) : String :=
  String.intercalate (" ") l

/-- Fuelled worker of `stripTags`; every step consumes at least one
character, so fuel equal to the length never runs out. -/
def stripTagsF : Nat → List Char → List Char
  | 0, cs => cs
  | _ + 1, [] => []
  | fuel + 1, c :: cs =>
    let pre := cs.takeWhile (fun d => ¬ d = '>')
    if c = '<' ∧ 0 < pre.length ∧ pre.length < cs.length then
      ' ' :: stripTagsF fuel (cs.drop (pre.length + 1))
    else c :: stripTagsF fuel cs

/-- Regex substitution `re.sub(r"<[^>]+>", " ", ·)` on the character
list: each leftmost occurrence of `<`, one or more non-`>` characters
and a closing `>` is replaced by one space (qa_engine.py line 85, the
`HAVE_BS4 = False` fallback branch of `_clean_html`). -/
def stripTags (cs : List Char) : List Char :=
  stripTagsF cs.length cs

/-- Model of `ProductQASystem._clean_html` (lines 80-85): non-strings become
`""` upstream (modelled by `Option.getD`), markup is stripped by the
regex fallback. -/
def cleanHtml (s : String) : String :=
  String.mk (stripTags s.data)

/-- One raw record of the product table: the CSV columns `Title`,
`Handle`, `Body (HTML)`, the two optional metafield columns, `Variant
Grams` and `Variant Weight Unit`.  `none` is a missing cell (NaN). -/
structure Row where
  title : Option String
  handle : Option String
  bodyHtml : Option String
  specsHtml : Option String
  featuresHtml : Option String
  variantGrams : Option ℚ
  variantWeightUnit : Option String
deriving DecidableEq, Repr

/-- One value of `self.product_groups` (`_build_index`, lines 102-116). -/
structure Entry where
  handles : List String
  desc : String
  specs : String
  features : String
  grams : List ℚ
  weightUnit : List String
deriving DecidableEq, Repr

/-- Prepared Title column of `_prep_dataframe` (line 89): fillna with the empty string, then astype str. -/
def cleanedTitle (r : Row) : String :=
  r.title.getD ("")

/-- Model of `desc_clean` of `_prep_dataframe` (line 90). -/
def descClean (r : Row) : String :=
  cleanHtml (r.bodyHtml.getD (""))

/-- Model of `specs_clean` of `_prep_dataframe` (lines 92-95); a missing column
is the all-`none` case. -/
def specsClean (r : Row) : String :=
  cleanHtml (r.specsHtml.getD (""))

/-- Model of `features_clean` of `_prep_dataframe` (lines 96-99). -/
def featuresClean (r : Row) : String :=
  cleanHtml (r.featuresHtml.getD (""))

/-- The rows of one Title group of `groupby` (line 104): grouping is by
the exact, case-sensitive prepared title. -/
def groupOf (rows : List Row) (t : String) : List Row :=
  rows.filter (fun r => cleanedTitle r = t)

/-- The `info` dict built for one group (lines 107-114). -/
def mkEntry (g : List Row) : Entry where
  handles := dedupFirst (g.filterMap (fun r => r.handle))
  desc := strTake (joinSp (dedupFirst (g.map descClean))) 12000
  specs := strTake (joinSp (dedupFirst (g.map specsClean))) 12000
  features := strTake (joinSp (dedupFirst (g.map featuresClean))) 12000
  grams := g.filterMap (fun r => r.variantGrams)
  weightUnit := dedupFirst (g.filterMap (fun r => r.variantWeightUnit))

/-- Stable insertion into an ascending list of strings. -/
def insertAsc (s : String) : List String → List String
  | [] => [s]
  | t :: ts => if s ≤ t then s :: t :: ts else t :: insertAsc s ts

/-- Ascending sort; models pandas `groupby(sort=True)` iterating group
keys in sorted order. -/
def sortAsc (l : List String) : List String :=
  l.foldr insertAsc []

/-- Model of `_build_index` (lines 102-116): the `product_groups` association
list, keyed by distinct non-empty titles in pandas group order (sorted),
with `self.titles` being its keys. -/
def buildIndex (rows : List Row) : List (String × Entry) :=
  ((sortAsc (dedupFirst (rows.map cleanedTitle))).filter (fun t => ¬ t = "")).map
    (fun t => (t, mkEntry (groupOf rows t)))

/-- Fuelled worker of `lcs`; every recursive call shortens the combined
input by at least one character. -/
def lcsF : Nat → List Char → List Char → Nat
  | 0, _, _ => 0
  | _ + 1, [], _ => 0
  | _ + 1, _ :: _, [] => 0
  | fuel + 1, a :: as, b :: bs =>
    if a = b then lcsF fuel as bs + 1
    else max (lcsF fuel (a :: as) bs) (lcsF fuel as (b :: bs))

/-- Length of a longest common subsequence; the similarity kernel of
the indel-based `rapidfuzz.fuzz.ratio`. -/
def lcs (a b : List Char) : Nat :=
  lcsF (a.length + b.length) a b

/-- Model of `int(fuzz.ratio(a, b))`: the normalized indel similarity
`100 * (1 - dist/(|a|+|b|)) = 200*lcs/(|a|+|b|)` truncated to an
integer, with `100` for two empty strings. -/
def ratioScore (a b : List Char) : Nat :=
  if a.length + b.length = 0 then 100
  else 200 * lcs a b / (a.length + b.length)

/-- Alignment search of `fuzz.partial_ratio` with `s` the shorter and
`l` the longer string: the best `ratioScore` of `s` against a window of
`l` of the length of `s`. -/
def partialAux (s l : List Char) : Nat :=
  if s.length = 0 then (if l.length = 0 then 100 else 0)
  else
    ((List.range (l.length - s.length + 1)).map
      (fun i => ratioScore s ((l.drop i).take s.length))).foldl max 0

/-- Model of `fuzz.partial_ratio`: the best `ratioScore` alignment of the
shorter string against a window of the longer one. -/
def partialSim (a b : List Char) : Nat :=
  if a.length ≤ b.length then partialAux a b else partialAux b a

/-- Model of `ProductQASystem._confidence` (lines 130-134):
`int(fuzz.partial_ratio(a.lower(), b.lower()))`, where a `None` input
makes `.lower()` raise and the `except` clause returns `0`. -/
def confidenceScore (a b : Option String) : Nat :=
  match a, b with
  | some a, some b => partialSim (pyLower a).data (pyLower b).data
  | _, _ => 0

/-- Model of `self.synonyms.get(key)`: first-match association-list lookup for
the synonym table loaded at startup. -/
def synLookup : List (String × String) → String → Option String
  | [], _ => none
  | (k, v) :: rest, key => if k = key then some v else synLookup rest key

/-- Model of `self.product_groups[t]` / `t in self.product_groups`: lookup of a
title in the index. -/
def lookupKey : List (String × Entry) → String → Option Entry
  | [], _ => none
  | (t, e) :: rest, k => if t = k then some e else lookupKey rest k

/-- Stable insertion by descending score; an earlier element is kept
before later elements with the same score. -/
def scoreInsert (x : String × Nat) : List (String × Nat) → List (String × Nat)
  | [] => [x]
  | y :: ys => if y.2 ≤ x.2 then x :: y :: ys else y :: scoreInsert x ys

/-- Model of `scores.sort(key=lambda x: x[1], reverse=True)` (line 141): a
stable descending sort by score. -/
def sortScores (l : List (String × Nat)) : List (String × Nat) :=
  l.foldr scoreInsert []

/-- The list `top` of `find_best_title` (lines 140-142): every title
scored against the query, sorted by descending score, kept when at or
above `int(cutoff*100)`. -/
def fuzzyTop (idx : List (String × Entry)) (query : String) (cutoff : ℚ) : List String :=
  ((sortScores (idx.map (fun p => (p.1, confidenceScore (some query) (some p.1))))).filter
    (fun p => (cutoff * 100).floor.toNat ≤ p.2)).map (fun p => p.1)

/-- The fuzzy branch of `find_best_title` (lines 140-143):
`(top[0], top[:3]) if top else (None, [])`. -/
def fuzzyMatch (idx : List (String × Entry)) (query : String) (cutoff : ℚ) :
    Option String × List String :=
  match fuzzyTop idx query cutoff with
  | [] => (none, [])
  | t :: _ => (some t, (fuzzyTop idx query cutoff).take 3)

/-- Model of `ProductQASystem.find_best_title` (lines 136-143): the synonym
table short-circuits when the alias is truthy and a current index key;
otherwise fuzzy matching runs. -/
def findBestTitle (syns : List (String × String)) (idx : List (String × Entry))
    (query : String) (cutoff : ℚ) : Option String × List String :=
  match synLookup syns (pyStrip (pyLower query)) with
  | some al => if ¬ al = "" ∧ (lookupKey idx al).isSome then (some al, [al])
               else fuzzyMatch idx query cutoff
  | none => fuzzyMatch idx query cutoff

/-- A character of the class `[a-z0-9\\-]` under `re.I` (line 120):
letters, digits, hyphen, or the escaped literal backslash the source
pattern contains. -/
def isSlugChar (c : Char) : Bool :=
  ('a' ≤ c ∧ c ≤ 'z') ∨ ('A' ≤ c ∧ c ≤ 'Z') ∨ ('0' ≤ c ∧ c ≤ '9') ∨ c = '-' ∨ c = '\\'

/-- Case-insensitive literal match: consumes `pat` from the front of
`cs` comparing lowercased characters, returning the rest. -/
def ciStart : List Char → List Char → Option (List Char)
  | [], cs => some cs
  | _ :: _, [] => none
  | p :: ps, c :: cs => if c.toLower = p.toLower then ciStart ps cs else none

/-- One attempt of the pattern `/products/([a-z0-9\\-]+)` at the head
of `cs`: the literal, then a maximal non-empty greedy run of slug
characters (the captured group). -/
def slugAt (cs : List Char) : Option (List Char) :=
  match ciStart ("/products/").data cs with
  | none => none
  | some rest =>
    let run := rest.takeWhile isSlugChar
    if run.isEmpty then none else some run

/-- Model of `re.search` of the slug pattern: leftmost successful start wins. -/
def findSlug : List Char → Option (List Char)
  | [] => none
  | c :: cs =>
    match slugAt (c :: cs) with
    | some r => some r
    | none => findSlug cs

/-- Model of `ProductQASystem.resolve_product_from_url` (lines 119-128): lower
the captured slug and return the first title (in index order) one of
whose handles matches it case-insensitively. -/
def resolveFromUrl (idx : List (String × Entry)) (q : String) : Option String :=
  match findSlug q.data with
  | none => none
  | some slugChars =>
    (idx.find? (fun p => p.2.handles.any (fun h => pyLower h = pyLower (String.mk slugChars)))).map
      (fun p => p.1)

/-- First successful alternative of a backtracking choice point. -/
def firstSome {α β : Type} : List α → (α → Option β) → Option β
  | [], _ => none
  | a :: as, f =>
    match f a with
    | some b => some b
    | none => firstSome as f

/-- The list `[hi, hi-1, ..., lo]` (empty when `hi < lo`): the greedy
preference order of a bounded repetition. -/
def countdown (hi lo : Nat) : List Nat :=
  (List.range (hi + 1 - lo)).map (fun i => hi - i)

/-- Alternatives of `class{lo,hi}` at `cs`, greedy: each is the number
of consumed characters paired with the remainder, longest first; empty
when fewer than `lo` characters of the class are available. -/
def repAlts (p : Char → Bool) (lo hi : Nat) (cs : List Char) : List (Nat × List Char) :=
  (countdown (min hi (cs.takeWhile p).length) lo).map (fun k => (k, cs.drop k))

/-- Alternatives of `class*` at `cs` (unbounded greedy repetition). -/
def starAlts (p : Char → Bool) (cs : List Char) : List (List Char) :=
  (repAlts p 0 (cs.takeWhile p).length cs).map (fun a => a.2)

/-- Regex alternation of case-insensitive literals, in source order:
returns the originally-matched text and the remainder. -/
def matchAlts (alts : List String) (cs : List Char) : Option (String × List Char) :=
  firstSome alts (fun a =>
    (ciStart a.data cs).map (fun rest => (String.mk (cs.take a.length), rest)))

/-- Alternatives of `\d{dlo,dhi}(?:\.\d{flo,fhi})?` at `cs` in greedy
backtracking order, each paired with the captured number text. -/
def numAlts (dlo dhi flo fhi : Nat) (cs : List Char) : List (String × List Char) :=
  (repAlts Char.isDigit dlo dhi cs).flatMap (fun a =>
    let intTxt := String.mk (cs.take a.1)
    (match a.2 with
     | '.' :: fs =>
       (repAlts Char.isDigit flo fhi fs).map
         (fun b => (intTxt ++ "." ++ String.mk (fs.take b.1), b.2))
     | _ => []) ++ [(intTxt, a.2)])

/-- A character of the class `[A-Za-z0-9]`. -/
def isAsciiAlnum (c : Char) : Bool :=
  ('A' ≤ c ∧ c ≤ 'Z') ∨ ('a' ≤ c ∧ c ≤ 'z') ∨ ('0' ≤ c ∧ c ≤ '9')

/-- The unit alternation of the weight pattern (line 152), in source
order. -/
def weightUnits : List String :=
  ["kg", "kilograms", "g", "grams", "lbs", "lb", "pounds"]

/-- One attempt, at the head of `cs`, of the pattern
`(?:weight[^A-Za-z0-9]{0,10})?(\d{1,3}(?:\.\d{1,2})?)\s?(kg|kilograms|g|grams|lbs|lb|pounds)`
under `re.I` (line 152), returning the captured value text and the
lowercased unit (`unit.lower()`, line 156). -/
def weightMatchAt (cs : List Char) : Option (String × String) :=
  let starts :=
    (match ciStart ("weight").data cs with
     | some rest => (repAlts (fun c => ¬ isAsciiAlnum c) 0 10 rest).map (fun a => a.2)
     | none => []) ++ [cs]
  firstSome starts (fun s1 =>
    firstSome (numAlts 1 3 1 2 s1) (fun v =>
      firstSome ((repAlts pyWhitespace 0 1 v.2).map (fun a => a.2)) (fun s3 =>
        (matchAlts weightUnits s3).map (fun u => (v.1, pyLower u.1)))))

/-- Model of `re.search` of the weight pattern: leftmost start position wins. -/
def weightSearch : List Char → Option (String × String)
  | [] => none
  | c :: cs =>
    match weightMatchAt (c :: cs) with
    | some r => some r
    | none => weightSearch cs

/-- Numeric value of a run of decimal digits. -/
def natOfDigits (l : List Char) : Nat :=
  l.foldl (fun n c => n * 10 + (c.toNat - 48)) 0

/-- Python `float(s)` on a captured number `digits(.digits)?`. -/
def parseNum (s : String) : ℚ :=
  match (s.data.dropWhile (fun c => ¬ c = '.')) with
  | '.' :: fs => natOfDigits (s.data.takeWhile (fun c => ¬ c = '.')) +
      (natOfDigits fs : ℚ) / ((10 : ℚ) ^ fs.length)
  | _ => natOfDigits s.data

/-- Decimal digit character of `n < 10`. -/
def digitChar (n : Nat) : Char :=
  Char.ofNat (48 + n)

/-- Fuelled digit accumulation for `natToStr`. -/
def natToStrAux : Nat → Nat → List Char → List Char
  | 0, _, acc => acc
  | _ + 1, 0, acc => acc
  | fuel + 1, n, acc => natToStrAux fuel (n / 10) (digitChar (n % 10) :: acc)

/-- Python `str(n)` for a natural number. -/
def natToStr (n : Nat) : String :=
  if n = 0 then "0" else String.mk (natToStrAux n n [])

/-- Round to the nearest integer, ties to even: the rounding of
the one-decimal Python float formatting scaled by ten. -/
def roundHalfEven (q : ℚ) : ℤ :=
  if q - (⌊q⌋ : ℚ) < 1 / 2 then ⌊q⌋
  else if (1 : ℚ) / 2 < q - (⌊q⌋ : ℚ) then ⌊q⌋ + 1
  else if ⌊q⌋ % 2 = 0 then ⌊q⌋ else ⌊q⌋ + 1

/-- Python `f"{q:.1f}"` for the non-negative values produced by the
weight extractor. -/
def fmt1 (q : ℚ) : String :=
  natToStr ((roundHalfEven (q * 10)).toNat / 10) ++ "." ++
    natToStr ((roundHalfEven (q * 10)).toNat % 10)

/-- Python `f"{q}"` (float repr) for a non-negative value with at most
two decimal places, as produced by `float()` on a captured number. -/
def reprFloat (q : ℚ) : String :=
  if (q * 100).floor.toNat % 100 = 0 then natToStr ((q * 100).floor.toNat / 100) ++ ".0"
  else if (q * 100).floor.toNat % 10 = 0 then
    natToStr ((q * 100).floor.toNat / 100) ++ "." ++ natToStr ((q * 100).floor.toNat % 100 / 10)
  else if (q * 100).floor.toNat % 100 < 10 then
    natToStr ((q * 100).floor.toNat / 100) ++ ".0" ++ natToStr ((q * 100).floor.toNat % 100)
  else natToStr ((q * 100).floor.toNat / 100) ++ "." ++ natToStr ((q * 100).floor.toNat % 100)

/-- Model of `ProductQASystem._extract_weight` (lines 146-163): positive variant
grams win (minimum, grams to kilograms, one decimal); otherwise the
weight pattern is searched in `specs + " " + features + " " + desc` and
normalized per unit. -/
def extractWeight (info : Entry) : Option String :=
  match info.grams.filter (fun g => 0 < g) with
  | g :: gs => some (fmt1 ((gs.foldl min g) / 1000) ++ " kg (approx., from variant data)")
  | [] =>
    match weightSearch (joinSp [info.specs, info.features, info.desc]).data with
    | none => none
    | some vu =>
      if vu.2 = "kg" ∨ vu.2 = "kilograms" then
        some (reprFloat (parseNum vu.1) ++ " kg (from product text)")
      else if vu.2 = "g" ∨ vu.2 = "grams" then
        some (fmt1 (parseNum vu.1 / 1000) ++ " kg (from product text)")
      else if vu.2 = "lbs" ∨ vu.2 = "lb" ∨ vu.2 = "pounds" then
        some (fmt1 (parseNum vu.1 * (453592 / 1000000)) ++
          " kg (converted from " ++ vu.2 ++ "; from product text)")
      else none

/-- The character class `[x×]` under `re.I` (line 167). -/
def isXChar (c : Char) : Bool :=
  c = 'x' ∨ c = 'X' ∨ c = '×'

/-- The unit alternation of the dimensions pattern (line 167), in
source order. -/
def dimUnits : List String :=
  ["mm", "cm", "in", "inch", "inches"]

/-- One attempt, at the head of `cs`, of the dimensions pattern
`(\d{2,4}(?:\.\d{1,2})?)\s*[x×]\s*(\d{2,4}(?:\.\d{1,2})?)\s*[x×]\s*(\d{2,4}(?:\.\d{1,2})?)\s*(mm|cm|in|inch|inches)`
under `re.I` (line 167). -/
def dimMatchAt (cs : List Char) : Option (String × String × String × String) :=
  firstSome (numAlts 2 4 1 2 cs) (fun l =>
    firstSome (starAlts pyWhitespace l.2) (fun s1 =>
      match s1 with
      | x1 :: s2 =>
        if isXChar x1 then
          firstSome (starAlts pyWhitespace s2) (fun s3 =>
            firstSome (numAlts 2 4 1 2 s3) (fun w =>
              firstSome (starAlts pyWhitespace w.2) (fun s4 =>
                match s4 with
                | x2 :: s5 =>
                  if isXChar x2 then
                    firstSome (starAlts pyWhitespace s5) (fun s6 =>
                      firstSome (numAlts 2 4 1 2 s6) (fun h =>
                        firstSome (starAlts pyWhitespace h.2) (fun s7 =>
                          (matchAlts dimUnits s7).map
                            (fun u => (l.1, w.1, h.1, u.1)))))
                  else none
                | [] => none)))
        else none
      | [] => none))

/-- Model of `re.search` of the dimensions pattern. -/
def dimSearch : List Char → Option (String × String × String × String)
  | [] => none
  | c :: cs =>
    match dimMatchAt (c :: cs) with
    | some r => some r
    | none => dimSearch cs

/-- One attempt, at the head of `cs`, of the fallback pattern
`dimensions[^:]*:\s*([^\n\r;]+)` under `re.I` (line 171), returning the
captured free text. -/
def dimFallbackAt (cs : List Char) : Option String :=
  match ciStart ("dimensions").data cs with
  | none => none
  | some rest =>
    firstSome (starAlts (fun c => ¬ c = ':') rest) (fun s1 =>
      match s1 with
      | ':' :: s2 =>
        firstSome (starAlts pyWhitespace s2) (fun s3 =>
          let run := s3.takeWhile (fun c => ¬ (c = '\n' ∨ c = '\r' ∨ c = ';'))
          if run.isEmpty then none else some (String.mk run))
      | _ => none)

/-- Model of `re.search` of the fallback dimensions pattern. -/
def dimFallbackSearch : List Char → Option String
  | [] => none
  | c :: cs =>
    match dimFallbackAt (c :: cs) with
    | some r => some r
    | none => dimFallbackSearch cs

/-- Model of `ProductQASystem._extract_dimensions` (lines 165-174). -/
def extractDimensions (info : Entry) : Option String :=
  match dimSearch (joinSp [info.specs, info.features, info.desc]).data with
  | some r => some (r.1 ++ " x " ++ r.2.1 ++ " x " ++ r.2.2.1 ++ " " ++ r.2.2.2 ++
      " (from product text)")
  | none =>
    (dimFallbackSearch (joinSp [info.specs, info.features, info.desc]).data).map
      (fun d => pyStrip d ++ " (from product text)")

/-- Starting alternatives of the first group of the battery pattern
`(battery(?:\s*life|\s*run[\s-]*time)?)` under `re.I` (line 178), in
backtracking order: `\s*life` ways, then `\s*run[\s-]*time` ways, then
the optional group absent. -/
def batteryStarts (cs : List Char) : List (List Char) :=
  match ciStart ("battery").data cs with
  | none => []
  | some rest =>
    ((starAlts pyWhitespace rest).filterMap (fun s => ciStart ("life").data s)) ++
    ((starAlts pyWhitespace rest).flatMap (fun s =>
      match ciStart ("run").data s with
      | none => []
      | some s2 =>
        (starAlts (fun c => pyWhitespace c ∨ c = '-') s2).filterMap
          (fun s3 => ciStart ("time").data s3))) ++
    [rest]

/-- One attempt, at the head of `cs`, of the battery pattern
`(battery(?:\s*life|\s*run[\s-]*time)?)\D{0,12}(\d{1,2}(?:\.\d{1,2})?)\s*(h|hr|hrs|hour|hours)`
under `re.I` (line 178), returning the captured hour count text. -/
def batteryMatchAt (cs : List Char) : Option String :=
  firstSome (batteryStarts cs) (fun s1 =>
    firstSome ((repAlts (fun c => ¬ c.isDigit) 0 12 s1).map (fun a => a.2)) (fun s2 =>
      firstSome (numAlts 1 2 1 2 s2) (fun v =>
        firstSome (starAlts pyWhitespace v.2) (fun s3 =>
          (matchAlts ["h", "hr", "hrs", "hour", "hours"] s3).map (fun _ => v.1)))))

/-- Model of `re.search` of the battery pattern. -/
def batterySearch : List Char → Option String
  | [] => none
  | c :: cs =>
    match batteryMatchAt (c :: cs) with
    | some r => some r
    | none => batterySearch cs

/-- Model of `ProductQASystem._extract_battery` (lines 176-181). -/
def extractBattery (info : Entry) : Option String :=
  (batterySearch (joinSp [info.specs, info.features, info.desc]).data).map
    (fun n => n ++ " hours (from product text)")

/-- The unit alternation `(l\/?min|lpm|litres per minute)` of the flow
pattern (line 190): returns the remainder after the first alternative
that matches. -/
def flowUnitAlt (cs : List Char) : Option (List Char) :=
  match ciStart ("l").data cs with
  | some s1 =>
    match firstSome (match s1 with
                     | '/' :: s2 => [s2, s1]
                     | _ => [s1]) (fun s => ciStart ("min").data s) with
    | some r => some r
    | none =>
      match ciStart ("lpm").data cs with
      | some r => some r
      | none => ciStart ("litres per minute").data cs
  | none =>
    match ciStart ("lpm").data cs with
    | some r => some r
    | none => ciStart ("litres per minute").data cs

/-- One attempt, at the head of `cs`, of the flow-rate pattern
`(\d(?:\.\d)?)\s*(l\/?min|lpm|litres per minute)` (line 190), returning
the captured number and the matched unit text. -/
def flowMatchAt (cs : List Char) : Option (String × String) :=
  firstSome (numAlts 1 1 1 1 cs) (fun v =>
    firstSome (starAlts pyWhitespace v.2) (fun s2 =>
      (flowUnitAlt s2).map
        (fun rest => (v.1, String.mk (s2.take (s2.length - rest.length))))))

/-- Model of `re.search` of the flow-rate pattern. -/
def flowSearch : List Char → Option (String × String)
  | [] => none
  | c :: cs =>
    match flowMatchAt (c :: cs) with
    | some r => some r
    | none => flowSearch cs

/-- Model of `ProductQASystem._extract_flow` (lines 183-194): boolean phrase
tags over the lowercased text, plus an uppercased flow rate. -/
def extractFlow (info : Entry) : Option String :=
  let text := pyLower (joinSp [info.specs, info.features, info.desc])
  let tags :=
    (if strContains text ("continuous flow") ∨ strContains text ("continuous-flow") then
      ["continuous flow"] else []) ++
    (if strContains text ("pulse flow") ∨ strContains text ("pulse-dose") ∨
        strContains text ("pulse mode") then ["pulse flow"] else [])
  let rate := (flowSearch text.data).map (fun r => r.1 ++ " " ++ pyUpper r.2)
  if ¬ tags = [] then
    some (String.intercalate (", ") tags ++
      (match rate with
       | some r => " (" ++ r ++ ")"
       | none => ""))
  else
    match rate with
    | some r => some r
    | none => none

/-- The attribute guess of `answer` (lines 217-225): keyword substring
membership against the lowercased question, in fixed priority order. -/
def classifyAttr (ql : String) : String :=
  if (["weight", "weigh", "kg", "grams"]).any (fun k => strContains ql k) then ("weight")
  else if (["dimension", "size", "width", "height", "length", "depth", "folded"]).any
      (fun k => strContains ql k) then ("dimensions")
  else if (["battery", "runtime", "run time", "hours"]).any
      (fun k => strContains ql k) then ("battery")
  else if (["flow", "l/min", "lpm", "litres per minute", "continuous", "pulse"]).any
      (fun k => strContains ql k) then ("flow")
  else ("general")

/-- Python `str.capitalize()`: first character uppercased, the rest
lowercased. -/
def pyCapitalize (s : String) : String :=
  match s.data with
  | [] => ""
  | c :: cs => String.mk (c.toUpper :: cs.map Char.toLower)

/-- The result dictionary of `answer`: an absent key is `none`.  The
field `attr` is the dictionary key named attribute (that word is
reserved in Lean). -/
structure AnswerResult where
  ok : Bool
  answer : String
  product : Option String
  attr : Option String
  value : Option String
  suggestions : Option (List String)
  confidence : Option Nat
deriving DecidableEq, Repr

/-- The not-found message of `answer` (line 210). -/
def noProductMsg : String :=
  "I couldn’t find that product. Please share the exact product name or a link to the product page."

/-- The infallible tail of `answer` (lines 216-251) once the resolved
resolved `info` has been looked up: attribute classification, extractor
dispatch, confidence, and the three result shapes. -/
def answerWith (q ql title : String) (info : Entry) : AnswerResult :=
  let attr := classifyAttr ql
  let conf := confidenceScore (some q) (some title)
  if attr = "weight" ∨ attr = "dimensions" ∨ attr = "battery" ∨ attr = "flow" then
    match (if attr = "weight" then extractWeight info
           else if attr = "dimensions" then extractDimensions info
           else if attr = "battery" then extractBattery info
           else extractFlow info) with
    | some v =>
      ⟨true, pyCapitalize attr ++ " for **" ++ title ++ "**: " ++ v,
        some title, some attr, some v, none, some conf⟩
    | none =>
      ⟨false, "I couldn’t find " ++ attr ++ " details for **" ++ title ++
          "** in the current data.",
        some title, some attr, none, none, some conf⟩
  else
    ⟨true, "I found **" ++ title ++ "**. Here’s a quick overview: " ++
        (if 300 < info.desc.length then strTake info.desc 300 ++ "..." else info.desc),
      some title, some ("general"), none, none, some conf⟩

/-- Model of `ProductQASystem.answer` after resolution (lines 207-251), taking
the resolved `(product_title, suggestions)` pair.  The one fallible
step, `self.product_groups[product_title]`, is modelled by `lookupKey`:
a missing key gives `none` (a raised `KeyError`); every structured
result is `some`.  Python truthiness of `product_title` makes the empty
title unresolved like `None`. -/
def answerResolved (idx : List (String × Entry)) (q : String)
    (pts : Option String × List String) : Option AnswerResult :=
  match pts.1 with
  | none => some ⟨false, noProductMsg, none, none, none, some pts.2, some 0⟩
  | some title =>
    if title = "" then some ⟨false, noProductMsg, none, none, none, some pts.2, some 0⟩
    else
      match lookupKey idx title with
      | none => none
      | some info => some (answerWith q (pyLower q) title info)

/-- Model of `ProductQASystem.answer`, resolution steps (lines 198-205): URL
resolution on the stripped question first, the synonym/fuzzy resolver
only when its result is falsy. -/
def answerCore (syns : List (String × String)) (idx : List (String × Entry))
    (question : String) : Option AnswerResult :=
  answerResolved idx (pyStrip question)
    (match resolveFromUrl idx (pyStrip question) with
     | some t => if t = "" then findBestTitle syns idx (pyStrip question) (11 / 20)
                 else (some t, [])
     | none => findBestTitle syns idx (pyStrip question) (11 / 20))

/-- State of the CSV source as `_load_from_csv` (lines 46-50) can see
it: the file is absent, present but failing to read or parse, or
present with rows. -/
inductive CsvSource where
  | absent : CsvSource
  | readError : String → CsvSource
  | content : List Row → CsvSource
deriving DecidableEq, Repr

/-- One variant object of a Shopify API product (lines 62-71). -/
structure ApiVariant where
  grams : Option ℚ
  sku : Option String
  price : Option String
deriving DecidableEq, Repr

/-- One product object of the Shopify API listing (lines 58-71). -/
structure ApiProduct where
  title : Option String
  handle : Option String
  bodyHtml : Option String
  variants : List ApiVariant
deriving DecidableEq, Repr

/-- State of the API source: the client fails (any exception inside the
`try`) or yields a product listing. -/
inductive ApiSource where
  | failure : String → ApiSource
  | listing : List ApiProduct → ApiSource
deriving DecidableEq, Repr

/-- Model of `ProductQASystem._load_from_csv` (lines 46-50): a missing file
yields the empty five-column frame, but `pd.read_csv` of an existing
unreadable or malformed file raises, which nothing catches. -/
def loadFromCsv : CsvSource → Except String (List Row)
  | CsvSource.absent => Except.ok []
  | CsvSource.readError e => Except.error e
  | CsvSource.content rows => Except.ok rows

/-- Model of `ProductQASystem._load_from_api` (lines 52-77): one row per
variant, weight unit hard-wired to `"g"`; every failure is caught and
yields the empty frame. -/
def loadFromApi : ApiSource → List Row
  | ApiSource.failure _ => []
  | ApiSource.listing ps =>
    ps.flatMap (fun p =>
      p.variants.map (fun v =>
        ⟨some (p.title.getD ("")), some (p.handle.getD ("")), some (p.bodyHtml.getD ("")),
          none, none, v.grams, some ("g")⟩))

/-- Model of `ProductQASystem.reload` (lines 37-44): pick the loader from the
lowercased `SHOPIFY_MODE`, then prep and rebuild the index; a CSV read
error propagates to the caller. -/
def reloadIndex (mode : String) (cs : CsvSource) (api : ApiSource) :
    Except String (List (String × Entry)) :=
  if pyLower mode = "api" then Except.ok (buildIndex (loadFromApi api))
  else (loadFromCsv cs).map buildIndex

/-- Does `reload` return normally? -/
def exceptOk {α : Type} : Except String α → Bool
  | Except.ok _ => true
  | Except.error _ => false

/-- Merge of the field values of a group following the words of the
spec (merge the distinct non-empty description/specs/feature values of
each group into one string per field, deduplicated by value, capped at
12,000 characters); to be compared against `mkEntry`, which does not
drop empty values. -/
def specMergeNonEmpty (vals : List String) : String :=
  strTake (joinSp (dedupFirst (vals.filter (fun v => ¬ v = "")))) 12000

/-- Concrete catalog row (one product, handle `walker`, body `w`,
variant weight 6200 g) used by the witnesses. -/
def rowW : Row :=
  ⟨some ("Walker"), some ("walker"), some ("w"), none, none, some 6200, some ("g")⟩

/-- Concrete one-row table for the witnesses. -/
def rowsW : List Row :=
  [rowW]

/-- Concrete entry with the single handle `walker` and empty text. -/
def eW : Entry :=
  ⟨["walker"], "", "", "", [], []⟩

/-- Concrete one-product index for the witnesses. -/
def idxW : List (String × Entry) :=
  [("Walker", eW)]

/-- Concrete synonym table mapping `w` to `Walker`. -/
def synsW : List (String × String) :=
  [("w", "Walker")]

/-- The general-overview result `answer` produces on `idxW` for the
question `/products/walker`. -/
def resW : AnswerResult :=
  ⟨true, "I found **Walker**. Here’s a quick overview: ",
    some ("Walker"), some ("general"), none, none, some 100⟩

/-- Entry whose only handle is `ab`: for the URL-resolution
counterexample. -/
def eAB : Entry :=
  ⟨["ab"], "", "", "", [], []⟩

/-- Entry with no variant weights whose description is
`Total weight: 13.5 lbs`. -/
def eLbs : Entry :=
  ⟨[], "Total weight: 13.5 lbs", "", "", [], []⟩

/-- Entry with variant gram weights 6200 and 7000 and no text. -/
def eGrams : Entry :=
  ⟨[], "", "", "", [6200, 7000], []⟩

/-- Two rows of one title whose descriptions are `x` and the empty
string: for the index-merge counterexample. -/
def rowsDup : List Row :=
  [⟨some ("T"), none, some ("x"), none, none, none, none⟩,
   ⟨some ("T"), none, none, none, none, none, none⟩]

/-- The entry `buildIndex rowsDup` builds for the title `T`: the empty
description of the second row survives deduplication and contributes a
trailing join separator. -/
def eDup : Entry :=
  ⟨[], "x ", "", "", [], []⟩

theorem lcsF_le_left : ∀ (fuel : Nat) (a b : List Char), lcsF fuel a b ≤ a.length := by
  intro fuel
  induction fuel with
  | zero => intro a b; simp [lcsF]
  | succ n ih =>
    intro a b
    cases a with
    | nil => simp [lcsF]
    | cons x xs =>
      cases b with
      | nil => simp [lcsF]
      | cons y ys =>
        simp only [lcsF, List.length_cons]
        split
        · have := ih xs ys
          omega
        · refine Nat.max_le.mpr ⟨?_, ?_⟩
          · have := ih (x :: xs) ys
            simp only [List.length_cons] at this
            omega
          · have := ih xs (y :: ys)
            omega

theorem lcsF_le_right : ∀ (fuel : Nat) (a b : List Char), lcsF fuel a b ≤ b.length := by
  intro fuel
  induction fuel with
  | zero => intro a b; simp [lcsF]
  | succ n ih =>
    intro a b
    cases a with
    | nil => cases b <;> simp [lcsF]
    | cons x xs =>
      cases b with
      | nil => simp [lcsF]
      | cons y ys =>
        simp only [lcsF, List.length_cons]
        split
        · have := ih xs ys
          omega
        · refine Nat.max_le.mpr ⟨?_, ?_⟩
          · have := ih (x :: xs) ys
            omega
          · have := ih xs (y :: ys)
            simp only [List.length_cons] at this
            omega

theorem lcs_le_left (a b : List Char) : lcs a b ≤ a.length :=
  lcsF_le_left _ a b

theorem lcs_le_right (a b : List Char) : lcs a b ≤ b.length :=
  lcsF_le_right _ a b

theorem ratioScore_le (a b : List Char) : ratioScore a b ≤ 100 := by
  unfold ratioScore
  split
  · exact le_refl 100
  · rename_i h
    have h1 : 200 * lcs a b ≤ 100 * (a.length + b.length) := by
      have ha := lcs_le_left a b
      have hb := lcs_le_right a b
      omega
    calc 200 * lcs a b / (a.length + b.length)
        ≤ 100 * (a.length + b.length) / (a.length + b.length) := Nat.div_le_div_right h1
      _ = 100 := Nat.mul_div_cancel 100 (by omega)

theorem foldl_max_le (l : List Nat) (acc : Nat) (hacc : acc ≤ 100)
    (h : ∀ x ∈ l, x ≤ 100) : l.foldl max acc ≤ 100 := by
  induction l generalizing acc with
  | nil => simpa using hacc
  | cons x xs ih =>
    simp only [List.foldl_cons]
    exact ih (max acc x) (Nat.max_le.mpr ⟨hacc, h x (by simp)⟩)
      (fun y hy => h y (by simp [hy]))

theorem partialAux_le (s l : List Char) : partialAux s l ≤ 100 := by
  unfold partialAux
  split
  · split
    · omega
    · omega
  · apply foldl_max_le _ _ (by omega)
    intro x hx
    simp only [List.mem_map] at hx
    obtain ⟨i, _, rfl⟩ := hx
    exact ratioScore_le _ _

theorem partialSim_le (a b : List Char) : partialSim a b ≤ 100 := by
  unfold partialSim
  split
  · exact partialAux_le a b
  · exact partialAux_le b a

theorem mem_scoreInsert (x y : String × Nat) (l : List (String × Nat)) :
    x ∈ scoreInsert y l ↔ x = y ∨ x ∈ l := by
  induction l with
  | nil => simp [scoreInsert]
  | cons z zs ih =>
    simp only [scoreInsert]
    split
    · simp [List.mem_cons]
    · simp only [List.mem_cons, ih]
      tauto

theorem mem_sortScores (x : String × Nat) (l : List (String × Nat)) :
    x ∈ sortScores l ↔ x ∈ l := by
  induction l with
  | nil => simp [sortScores]
  | cons y ys ih =>
    simp only [sortScores, List.foldr_cons] at *
    rw [mem_scoreInsert]
    simp [ih]

theorem lookupKey_isSome_of_mem_fst (idx : List (String × Entry)) (t : String)
    (h : t ∈ idx.map Prod.fst) : (lookupKey idx t).isSome = true := by
  induction idx with
  | nil => simp at h
  | cons p ps ih =>
    obtain ⟨a, e⟩ := p
    simp only [List.map_cons, List.mem_cons] at h
    simp only [lookupKey]
    split
    · rfl
    · rename_i hne
      rcases h with h | h
      · exact absurd h.symm hne
      · exact ih h

theorem mem_fst_of_lookupKey_isSome (idx : List (String × Entry)) (t : String)
    (h : (lookupKey idx t).isSome = true) : t ∈ idx.map Prod.fst := by
  induction idx with
  | nil => simp [lookupKey] at h
  | cons p ps ih =>
    obtain ⟨a, e⟩ := p
    simp only [lookupKey] at h
    simp only [List.map_cons, List.mem_cons]
    by_cases ha : a = t
    · exact Or.inl ha.symm
    · rw [if_neg ha] at h
      exact Or.inr (ih h)

theorem buildIndex_keys (rows : List Row) :
    (buildIndex rows).map Prod.fst =
      (sortAsc (dedupFirst (rows.map cleanedTitle))).filter (fun t => ¬ t = "") := by
  simp only [buildIndex, List.map_map]
  exact List.map_id _

theorem buildIndex_key_ne_empty (rows : List Row) (t : String)
    (h : t ∈ (buildIndex rows).map Prod.fst) : ¬ t = "" := by
  rw [buildIndex_keys] at h
  simpa using (List.mem_filter.mp h).2

theorem fuzzyTop_lookup (idx : List (String × Entry)) (q : String) (cutoff : ℚ)
    (t : String) (h : t ∈ fuzzyTop idx q cutoff) : (lookupKey idx t).isSome = true := by
  simp only [fuzzyTop, List.mem_map] at h
  obtain ⟨p, hp, rfl⟩ := h
  have hps := (List.mem_filter.mp hp).1
  rw [mem_sortScores] at hps
  simp only [List.mem_map] at hps
  obtain ⟨r, hr, rfl⟩ := hps
  exact lookupKey_isSome_of_mem_fst idx r.1 (List.mem_map_of_mem Prod.fst hr)

theorem fuzzyMatch_fst_lookup (idx : List (String × Entry)) (q : String) (cutoff : ℚ)
    (t : String) (h : (fuzzyMatch idx q cutoff).1 = some t) :
    (lookupKey idx t).isSome = true := by
  unfold fuzzyMatch at h
  cases hcase : fuzzyTop idx q cutoff with
  | nil =>
    rw [hcase] at h
    simp at h
  | cons hd tl =>
    rw [hcase] at h
    have h2 : some hd = some t := h
    cases h2
    apply fuzzyTop_lookup idx q cutoff
    rw [hcase]
    exact List.mem_cons_self _ tl

theorem findBestTitle_fst_lookup (syns : List (String × String))
    (idx : List (String × Entry)) (q : String) (cutoff : ℚ) (t : String)
    (h : (findBestTitle syns idx q cutoff).1 = some t) :
    (lookupKey idx t).isSome = true := by
  unfold findBestTitle at h
  split at h
  · split at h
    · rename_i hcond
      have h2 : some _ = some t := h
      cases h2
      exact hcond.2
    · exact fuzzyMatch_fst_lookup idx q cutoff t h
  · exact fuzzyMatch_fst_lookup idx q cutoff t h

theorem resolveFromUrl_lookup (idx : List (String × Entry)) (q t : String)
    (h : resolveFromUrl idx q = some t) : (lookupKey idx t).isSome = true := by
  simp only [resolveFromUrl] at h
  split at h
  · simp at h
  · rw [Option.map_eq_some'] at h
    obtain ⟨p, hp, rfl⟩ := h
    exact lookupKey_isSome_of_mem_fst idx p.1
      (List.mem_map_of_mem Prod.fst (List.mem_of_find?_eq_some hp))

theorem answerWith_product (q ql title : String) (info : Entry) :
    (answerWith q ql title info).product = some title := by
  simp only [answerWith]
  split
  · split <;> rfl
  · rfl

theorem answerWith_confidence (q ql title : String) (info : Entry) :
    (answerWith q ql title info).confidence =
      some (confidenceScore (some q) (some title)) := by
  simp only [answerWith]
  split
  · split <;> rfl
  · rfl

theorem answerResolved_isSome (idx : List (String × Entry)) (q : String)
    (pts : Option String × List String)
    (h : ∀ title, pts.1 = some title → ¬ title = "" → (lookupKey idx title).isSome = true) :
    (answerResolved idx q pts).isSome = true := by
  unfold answerResolved
  cases hp : pts.1 with
  | none => rfl
  | some title =>
    by_cases ht : title = ""
    · simp [ht]
    · obtain ⟨info, hinfo⟩ := Option.isSome_iff_exists.mp (h title hp ht)
      simp [ht, hinfo]

theorem answerCore_isSome (syns : List (String × String)) (idx : List (String × Entry))
    (question : String) : (answerCore syns idx question).isSome = true := by
  unfold answerCore
  apply answerResolved_isSome
  intro title hp ht
  split at hp
  · rename_i t hres
    split at hp
    · exact findBestTitle_fst_lookup syns idx (pyStrip question) (11 / 20) title hp
    · have h2 : some t = some title := hp
      cases h2
      exact resolveFromUrl_lookup idx (pyStrip question) _ hres
  · exact findBestTitle_fst_lookup syns idx (pyStrip question) (11 / 20) title hp

theorem answerResolved_confidence (idx : List (String × Entry)) (q : String)
    (pts : Option String × List String) (r : AnswerResult) (t : String)
    (h : answerResolved idx q pts = some r) (hp : r.product = some t) :
    r.confidence = some (confidenceScore (some q) (some t)) := by
  unfold answerResolved at h
  split at h
  · have h2 := Option.some.inj h
    rw [← h2] at hp
    simp at hp
  · split at h
    · have h2 := Option.some.inj h
      rw [← h2] at hp
      simp at hp
    · split at h
      · exact absurd h (by simp)
      · rename_i title _ _ info hinfo
        have h2 := Option.some.inj h
        rw [← h2] at hp
        rw [answerWith_product] at hp
        have h3 := Option.some.inj hp
        rw [← h2, answerWith_confidence, h3]

theorem answerResolved_general (idx : List (String × Entry)) (q : String)
    (pts : Option String × List String) (r : AnswerResult) (t : String) (info : Entry)
    (h : answerResolved idx q pts = some r) (hp : r.product = some t)
    (hcls : classifyAttr (pyLower q) = "general") (hinfo : lookupKey idx t = some info) :
    r.ok = true ∧ r.attr = some ("general") ∧
    r.answer = "I found **" ++ t ++ "**. Here’s a quick overview: " ++
      (if 300 < info.desc.length then strTake info.desc 300 ++ "..." else info.desc) := by
  unfold answerResolved at h
  split at h
  · have h2 := Option.some.inj h
    rw [← h2] at hp
    simp at hp
  · split at h
    · have h2 := Option.some.inj h
      rw [← h2] at hp
      simp at hp
    · split at h
      · exact absurd h (by simp)
      · rename_i title _ _ info2 hinfo2
        have h2 := Option.some.inj h
        rw [← h2] at hp
        rw [answerWith_product] at hp
        have h3 := Option.some.inj hp
        subst h3
        rw [hinfo2] at hinfo
        have h4 := Option.some.inj hinfo
        subst h4
        rw [← h2]
        simp only [answerWith, hcls]
        rw [if_neg (by decide)]
        exact ⟨rfl, rfl, rfl⟩

theorem strTake_length_le (s : String) (n : Nat) : (strTake s n).length ≤ n := by
  have h : (strTake s n).length = (s.data.take n).length := rfl
  rw [h, List.length_take]
  omega

/-- C1: for every built index and every string question, `answer`
returns a well-formed structured result without raising; and whenever
no product is resolved (URL, synonym and fuzzy resolution all fail)
the result has `ok = false`, `confidence = 0`, a suggestions list, the
could-not-find answer message, and no product, attribute or value
fields. -/
theorem claim1_answer_total_and_unresolved (syns : List (String × String))
    (rows : List Row) (question : String) :
    (answerCore syns (buildIndex rows) question).isSome = true ∧
    (resolveFromUrl (buildIndex rows) (pyStrip question) = none →
     (findBestTitle syns (buildIndex rows) (pyStrip question) (11 / 20)).1 = none →
     answerCore syns (buildIndex rows) question =
       some ⟨false, noProductMsg, none, none, none,
         some (findBestTitle syns (buildIndex rows) (pyStrip question) (11 / 20)).2,
         some 0⟩) := by
  refine ⟨answerCore_isSome syns (buildIndex rows) question, fun hres hfb => ?_⟩
  unfold answerCore
  split
  · rename_i t hres2
    rw [hres] at hres2
    cases hres2
  · unfold answerResolved
    split
    · rfl
    · rename_i title heq
      rw [hfb] at heq
      cases heq

/-- Witness for C1 at a concrete built index and an unresolvable
question. -/
theorem claim1_witness :
    (answerCore [] (buildIndex rowsW) "zzzz").isSome = true ∧
    answerCore [] (buildIndex rowsW) "zzzz" =
      some ⟨false, noProductMsg, none, none, none,
        some (findBestTitle [] (buildIndex rowsW) (pyStrip "zzzz") (11 / 20)).2,
        some 0⟩ :=
  ⟨(claim1_answer_total_and_unresolved [] rowsW "zzzz").1,
   (claim1_answer_total_and_unresolved [] rowsW "zzzz").2 (by decide) (by decide)⟩

/-- C6: a query whose lowercased, trimmed form is a synonym key whose
mapped title is present in the current built index short-circuits to
that title with it as the sole suggestion, bypassing fuzzy scoring
entirely; a mapped title absent from the index is ignored and fuzzy
matching proceeds. -/
theorem claim6_synonym_short_circuit (rows : List Row)
    (syns : List (String × String)) (question al : String) (cutoff : ℚ)
    (h : synLookup syns (pyStrip (pyLower question)) = some al) :
    findBestTitle syns (buildIndex rows) question cutoff =
      (if (lookupKey (buildIndex rows) al).isSome = true then (some al, [al])
       else fuzzyMatch (buildIndex rows) question cutoff) := by
  unfold findBestTitle
  split
  · rename_i al2 hs2
    rw [h] at hs2
    have hal : al = al2 := Option.some.inj hs2
    subst hal
    by_cases hk : (lookupKey (buildIndex rows) al).isSome = true
    · have hne : ¬ al = "" :=
        buildIndex_key_ne_empty rows al (mem_fst_of_lookupKey_isSome _ _ hk)
      rw [if_pos ⟨hne, hk⟩, if_pos hk]
    · rw [if_neg (fun hc => hk hc.2), if_neg hk]
  · rename_i hs2
    rw [h] at hs2
    cases hs2

/-- Witness for C6 with a synonym whose mapped title is in the index. -/
theorem claim6_witness :
    findBestTitle synsW (buildIndex rowsW) " W " (11 / 20) =
      (if (lookupKey (buildIndex rowsW) ("Walker")).isSome = true
       then (some ("Walker"), ["Walker"])
       else fuzzyMatch (buildIndex rowsW) " W " (11 / 20)) :=
  claim6_synonym_short_circuit rowsW synsW " W " "Walker" (11 / 20) (by decide)

/-- C7: the confidence score is an integer in `[0, 100]`; a `None`
input (failure inside scoring) yields `0` rather than an exception; and
the confidence `answer` reports for a resolved product is the same
partial-ratio score recomputed between the stripped query and the
resolved title. -/
theorem claim7_confidence_bounds_and_reuse :
    (∀ a b : Option String, confidenceScore a b ≤ 100) ∧
    (∀ b : Option String, confidenceScore none b = 0) ∧
    (∀ a : Option String, confidenceScore a none = 0) ∧
    (∀ (syns : List (String × String)) (idx : List (String × Entry))
       (question : String) (r : AnswerResult) (t : String),
      answerCore syns idx question = some r → r.product = some t →
      r.confidence = some (confidenceScore (some (pyStrip question)) (some t))) := by
  refine ⟨?_, ?_, ?_, ?_⟩
  · intro a b
    cases a with
    | none => simp [confidenceScore]
    | some a =>
      cases b with
      | none => simp [confidenceScore]
      | some a2 => exact partialSim_le _ _
  · intro b
    cases b <;> rfl
  · intro a
    cases a <;> rfl
  · intro syns idx question r t h hp
    unfold answerCore at h
    exact answerResolved_confidence idx (pyStrip question) _ r t h hp

/-- Witness for C7 at a concrete resolved query. -/
theorem claim7_witness :
    resW.confidence =
      some (confidenceScore (some (pyStrip "/products/walker")) (some ("Walker"))) :=
  claim7_confidence_bounds_and_reuse.2.2.2 [] idxW "/products/walker" resW "Walker"
    (by decide) (by decide)

/-- C8: for every resolved product whose question classifies as no
specific attribute, `answer` returns `ok = true`, attribute `general`,
and an overview built from the description: longer than 300 characters
is cut to its first 300 characters plus an ellipsis marker, otherwise
the description appears verbatim with no marker. -/
theorem claim8_general_fallback (syns : List (String × String))
    (idx : List (String × Entry)) (question : String) (r : AnswerResult)
    (t : String) (info : Entry)
    (h : answerCore syns idx question = some r) (hp : r.product = some t)
    (hcls : classifyAttr (pyLower (pyStrip question)) = "general")
    (hinfo : lookupKey idx t = some info) :
    r.ok = true ∧ r.attr = some ("general") ∧
    r.answer = "I found **" ++ t ++ "**. Here’s a quick overview: " ++
      (if 300 < info.desc.length then strTake info.desc 300 ++ "..." else info.desc) := by
  unfold answerCore at h
  exact answerResolved_general idx (pyStrip question) _ r t info h hp hcls hinfo

/-- Witness for C8 at a concrete general question. -/
theorem claim8_witness :
    resW.ok = true ∧ resW.attr = some ("general") ∧
    resW.answer = "I found **" ++ "Walker" ++ "**. Here’s a quick overview: " ++
      (if 300 < eW.desc.length then strTake eW.desc 300 ++ "..." else eW.desc) :=
  claim8_general_fallback [] idxW "/products/walker" resW "Walker" eW
    (by decide) (by decide) (by decide) (by decide)

/-- C10: when no synonym short-circuit applies and no title reaches the
cutoff score of 55 (`int(0.55*100)`), `find_best_title` returns `None`
together with an exactly empty suggestions list. -/
theorem claim10_below_cutoff_empty (syns : List (String × String))
    (idx : List (String × Entry)) (question : String)
    (hsyn : ∀ al, synLookup syns (pyStrip (pyLower question)) = some al →
      ¬ (¬ al = "" ∧ (lookupKey idx al).isSome = true))
    (hlow : ∀ p ∈ idx, confidenceScore (some question) (some p.1) < 55) :
    findBestTitle syns idx question (11 / 20) = (none, []) := by
  have hcut : (((11 : ℚ) / 20) * 100).floor.toNat = 55 := by decide
  have htop : fuzzyTop idx question (11 / 20) = [] := by
    unfold fuzzyTop
    rw [List.map_eq_nil_iff]
    apply List.filter_eq_nil_iff.mpr
    intro p hp
    rw [mem_sortScores] at hp
    simp only [List.mem_map] at hp
    obtain ⟨x, hx, rfl⟩ := hp
    simp only [hcut, decide_eq_true_eq]
    have := hlow x hx
    omega
  unfold findBestTitle
  cases hs : synLookup syns (pyStrip (pyLower question)) with
  | none =>
    simp only [fuzzyMatch, htop]
  | some al =>
    simp only [hs]
    rw [if_neg (hsyn al hs)]
    simp only [fuzzyMatch, htop]

/-- Witness for C10 with a query below every title score. -/
theorem claim10_witness : findBestTitle [] idxW "zzzz" (11 / 20) = (none, []) :=
  claim10_below_cutoff_empty [] idxW "zzzz"
    (fun al h => Option.noConfusion h) (by decide)

theorem answerResolved_resolved (idx : List (String × Entry)) (q t : String)
    (info : Entry) (ht : ¬ t = "") (hinfo : lookupKey idx t = some info) :
    answerResolved idx q (some t, ([] : List String)) =
      some (answerWith q (pyLower q) t info) := by
  unfold answerResolved
  split
  · rename_i heq
    cases heq
  · rename_i title heq
    have h2 : some t = some title := heq
    cases h2
    rw [if_neg ht, hinfo]

/-- C2 counterexample: `reload` in CSV mode only guards a missing file;
an existing but unreadable (or unparsable) CSV makes `pd.read_csv`
raise and the failure propagates to the caller instead of returning
normally with an empty catalog. -/
theorem claim2_counterexample :
    ¬ ∀ (mode : String) (cs : CsvSource) (api : ApiSource),
        exceptOk (reloadIndex mode cs api) = true := by
  intro h
  have h2 := h ("csv") (CsvSource.readError ("permission denied")) (ApiSource.listing [])
  exact absurd h2 (by decide)

/-- C2 amended: `reload` returns normally in API mode (the catch-all
makes a failing listing degrade to the empty catalog), and in CSV mode
when the file is absent (empty catalog) or its rows are readable; but a
CSV file that exists and fails to read propagates its error to the
caller. -/
theorem claim2_reload_amended :
    (∀ (mode : String) (cs : CsvSource) (api : ApiSource), pyLower mode = "api" →
        reloadIndex mode cs api = Except.ok (buildIndex (loadFromApi api))) ∧
    (∀ e : String, loadFromApi (ApiSource.failure e) = []) ∧
    (∀ (mode : String) (api : ApiSource), ¬ pyLower mode = "api" →
        reloadIndex mode CsvSource.absent api = Except.ok (buildIndex [])) ∧
    (∀ (mode : String) (api : ApiSource) (rows : List Row), ¬ pyLower mode = "api" →
        reloadIndex mode (CsvSource.content rows) api = Except.ok (buildIndex rows)) ∧
    (∀ (mode : String) (api : ApiSource) (e : String), ¬ pyLower mode = "api" →
        reloadIndex mode (CsvSource.readError e) api = Except.error e) ∧
    buildIndex [] = [] := by
  refine ⟨?_, ?_, ?_, ?_, ?_, rfl⟩
  · intro mode cs api h
    unfold reloadIndex
    rw [if_pos h]
  · intro e
    rfl
  · intro mode api h
    unfold reloadIndex
    rw [if_neg h]
    rfl
  · intro mode api rows h
    unfold reloadIndex
    rw [if_neg h]
    rfl
  · intro mode api e h
    unfold reloadIndex
    rw [if_neg h]
    rfl

/-- Witness for C2 amended, covering the API-failure, absent-file and
read-error cases at concrete inputs. -/
theorem claim2_witness :
    reloadIndex "api" CsvSource.absent (ApiSource.failure ("boom")) =
      Except.ok (buildIndex (loadFromApi (ApiSource.failure ("boom")))) ∧
    reloadIndex "csv" CsvSource.absent (ApiSource.listing []) =
      Except.ok (buildIndex []) ∧
    reloadIndex "csv" (CsvSource.readError ("permission denied")) (ApiSource.listing []) =
      Except.error "permission denied" :=
  ⟨claim2_reload_amended.1 "api" CsvSource.absent (ApiSource.failure ("boom")) (by decide),
   claim2_reload_amended.2.2.1 "csv" (ApiSource.listing []) (by decide),
   claim2_reload_amended.2.2.2.2.1 "csv" (ApiSource.listing []) "permission denied" (by decide)⟩

/-- C3: when an entry has at least one positive numeric variant gram
weight, weight extraction ignores free text and returns the minimum
positive value divided by 1000, formatted to one decimal place and
tagged `(approx., from variant data)`; in particular variant grams
6200 and 7000 yield `6.2 kg (approx., from variant data)`. -/
theorem claim3_weight_from_variants :
    (∀ (info : Entry) (g : ℚ) (gs : List ℚ),
      info.grams.filter (fun x => 0 < x) = g :: gs →
      extractWeight info =
        some (fmt1 ((gs.foldl min g) / 1000) ++ " kg (approx., from variant data)")) ∧
    extractWeight eGrams = some ("6.2 kg (approx., from variant data)") := by
  constructor
  · intro info g gs hg
    unfold extractWeight
    rw [hg]
  · decide

/-- Witness for C3 at the concrete variant grams 6200 and 7000. -/
theorem claim3_witness :
    extractWeight eGrams =
      some (fmt1 ((([7000] : List ℚ).foldl min 6200) / 1000) ++
        " kg (approx., from variant data)") :=
  claim3_weight_from_variants.1 eGrams 6200 [7000] (by decide)

/-- C4 counterexample: for the lbs text the extractor tags the value
`(converted from lbs; from product text)`, so the claimed literal tag
`(from product text)` does not occur in the returned string. -/
theorem claim4_counterexample :
    extractWeight eLbs = some ("6.1 kg (converted from lbs; from product text)") ∧
    strContains ("6.1 kg (converted from lbs; from product text)") ("(from product text)") =
      false := by
  decide

/-- C4 amended: for the entry with no positive variant weights whose
text contains `Total weight: 13.5 lbs`, weight extraction returns
`13.5 × 0.453592` rounded to one decimal — `6.1` kg — tagged
`(converted from lbs; from product text)`, which mentions the
product-text provenance. -/
theorem claim4_weight_from_text_amended :
    extractWeight eLbs =
      some (fmt1 ((13.5 : ℚ) * (453592 / 1000000)) ++
        " kg (converted from lbs; from product text)") ∧
    fmt1 ((13.5 : ℚ) * (453592 / 1000000)) = "6.1" ∧
    strContains ("6.1 kg (converted from lbs; from product text)") ("from product text") =
      true := by
  decide

/-- C5 counterexample: the URL resolver captures the maximal slug run
after `/products/`, so a query containing `/products/ab` as a substring
(inside `/products/abc`) with `ab` a known handle does not resolve via
URL resolution. -/
theorem claim5_counterexample :
    ¬ ∀ (idx : List (String × Entry)) (q slug t : String) (e : Entry),
        (∀ c ∈ slug.data, isSlugChar c = true) → ¬ slug = "" →
        strContains q ("/products/" ++ slug) = true →
        (t, e) ∈ idx → pyLower slug ∈ e.handles.map pyLower →
        resolveFromUrl idx q = some t := by
  intro h
  have h2 := h [("T", eAB)] ("/products/abc") ("ab") ("T") eAB (by decide) (by decide)
    (by decide) (by decide) (by decide)
  exact absurd h2 (by decide)

/-- C5 amended: URL resolution considers the leftmost occurrence of
`/products/` (case-insensitively) followed by at least one slug
character and captures the maximal run of slug characters; whenever
that resolver returns a non-empty title for the stripped question —
i.e. the captured slug matches some handle and the title is the first
such match — `answer` resolves the query to that title for every
synonym table, before and regardless of fuzzy or synonym matching. -/
theorem claim5_url_priority_amended (syns : List (String × String))
    (idx : List (String × Entry)) (question t : String) (ht : ¬ t = "")
    (h : resolveFromUrl idx (pyStrip question) = some t) :
    (∃ slugChars, findSlug (pyStrip question).data = some slugChars ∧
      (idx.find? (fun p => p.2.handles.any
          (fun hh => pyLower hh = pyLower (String.mk slugChars)))).map Prod.fst =
        some t) ∧
    (∃ r, answerCore syns idx question = some r ∧ r.product = some t) := by
  constructor
  · unfold resolveFromUrl at h
    split at h
    · cases h
    · rename_i slugChars hslug
      exact ⟨slugChars, hslug, h⟩
  · obtain ⟨info, hinfo⟩ :=
      Option.isSome_iff_exists.mp (resolveFromUrl_lookup idx (pyStrip question) t h)
    refine ⟨answerWith (pyStrip question) (pyLower (pyStrip question)) t info, ?_,
      answerWith_product _ _ _ _⟩
    unfold answerCore
    split
    · rename_i t2 hres2
      rw [h] at hres2
      have h2 : t = t2 := Option.some.inj hres2
      subst h2
      rw [if_neg ht]
      exact answerResolved_resolved idx (pyStrip question) t info ht hinfo
    · rename_i hres2
      rw [h] at hres2
      cases hres2

/-- Witness for C5 amended at a concrete product URL. -/
theorem claim5_witness :
    (∃ slugChars, findSlug (pyStrip "/products/walker").data = some slugChars ∧
      (idxW.find? (fun p => p.2.handles.any
          (fun hh => pyLower hh = pyLower (String.mk slugChars)))).map Prod.fst =
        some ("Walker")) ∧
    (∃ r, answerCore [] idxW "/products/walker" = some r ∧ r.product = some ("Walker")) :=
  claim5_url_priority_amended [] idxW "/products/walker" "Walker" (by decide) (by decide)

/-- C9 counterexample: `_build_index` deduplicates field values but
does not drop empty ones, so a group with descriptions `x` and `` gets
the merged description `x ` (with a trailing join separator), not the
merge `x` of its distinct non-empty values. -/
theorem claim9_counterexample :
    ¬ ∀ (rows : List Row) (t : String) (e : Entry), (t, e) ∈ buildIndex rows →
        e.desc = specMergeNonEmpty ((groupOf rows t).map descClean) := by
  intro h
  have h2 := h rowsDup ("T") eDup (by decide)
  exact absurd h2 (by decide)

/-- C9 amended: the built index maps only non-empty titles to entries;
each entry aggregates exactly the rows with the same (case-sensitive)
title; each text field is the 12,000-character cap of the space-join of
the first-occurrence-deduplicated HTML-stripped values — stripping
happens before concatenation and capping, and empty values are kept,
each contributing only a join separator; every field is at most 12,000
characters long. -/
theorem claim9_index_invariants_amended (rows : List Row) :
    (∀ t ∈ (buildIndex rows).map Prod.fst, ¬ t = "") ∧
    (∀ (t : String) (e : Entry), (t, e) ∈ buildIndex rows →
      e = mkEntry (groupOf rows t) ∧
      e.desc = strTake (joinSp (dedupFirst ((groupOf rows t).map descClean))) 12000 ∧
      e.specs = strTake (joinSp (dedupFirst ((groupOf rows t).map specsClean))) 12000 ∧
      e.features =
        strTake (joinSp (dedupFirst ((groupOf rows t).map featuresClean))) 12000 ∧
      e.desc.length ≤ 12000 ∧ e.specs.length ≤ 12000 ∧ e.features.length ≤ 12000) := by
  constructor
  · exact fun t ht => buildIndex_key_ne_empty rows t ht
  · intro t e hm
    unfold buildIndex at hm
    rw [List.mem_map] at hm
    obtain ⟨t2, ht2, heq⟩ := hm
    have h1 : t2 = t := congrArg Prod.fst heq
    subst h1
    have h2 : mkEntry (groupOf rows t2) = e := congrArg Prod.snd heq
    rw [← h2]
    exact ⟨rfl, rfl, rfl, rfl, strTake_length_le _ _, strTake_length_le _ _,
      strTake_length_le _ _⟩

/-- Witness for C9 amended at the concrete two-row group. -/
theorem claim9_witness :
    (¬ ("T" : String) = "") ∧
    (eDup = mkEntry (groupOf rowsDup ("T")) ∧
      eDup.desc =
        strTake (joinSp (dedupFirst ((groupOf rowsDup ("T")).map descClean))) 12000 ∧
      eDup.specs =
        strTake (joinSp (dedupFirst ((groupOf rowsDup ("T")).map specsClean))) 12000 ∧
      eDup.features =
        strTake (joinSp (dedupFirst ((groupOf rowsDup ("T")).map featuresClean))) 12000 ∧
      eDup.desc.length ≤ 12000 ∧ eDup.specs.length ≤ 12000 ∧
      eDup.features.length ≤ 12000) :=
  ⟨(claim9_index_invariants_amended rowsDup).1 ("T") (by decide),
   (claim9_index_invariants_amended rowsDup).2 ("T") eDup (by decide)⟩
